import Mathlib

/-!
Shallow embedding of `lib/ldp.js` from linkeddata/ldnode: the LDP resource
access layer (`get`, `post`, `exists`, `graph`, `getAvailablePath`,
`listContainer`).

JavaScript builtins (string split, `parseInt`, truthiness, node's
`path.join` and `fs` read streams) are modelled explicitly.  External
libraries (rdflib, mime-types, uuid) and repository modules that are not
among the available sources (`utils`, `ldp-container`, `http-error`,
`ldp-file-store`) appear either as oracle fields of an `Env` record or as
definitions marked "Modelled from the spec".
-/

/-- JavaScript truthiness of an optional string (`undefined` and the empty
string are falsy). -/
def jsTruthyOptStr : Option String → Bool
  | none => false
  | some s => s != ""

/-- JavaScript truthiness of a string. -/
def jsTruthyStr (s : String) : Bool := s != ""

/-- JavaScript truthiness of a number, where `none` models `NaN`
(`NaN` and `0` are falsy). -/
def jsTruthyNum : Option Int → Bool
  | none => false
  | some v => v != 0

/-- Helper for `jsSplit`: scan the characters, cutting at the separator. -/
def jsSplitAux (c : Char) : List Char → List Char → List String
  | [], acc => [String.mk acc.reverse]
  | x :: xs, acc =>
    if x = c then String.mk acc.reverse :: jsSplitAux c xs []
    else jsSplitAux c xs (x :: acc)

/-- Model of JavaScript `String.prototype.split` with a one-character
separator (`"a-b".split('-') = ["a","b"]`, `"a-".split('-') = ["a",""]`). -/
def jsSplit (s : String) (c : Char) : List String := jsSplitAux c s.toList []

/-- Helper for `jsReplaceFirst`: replace the first occurrence of `pat`. -/
def jsReplaceFirstAux (pat repl : List Char) : List Char → List Char
  | [] => []
  | x :: xs =>
    if pat.isPrefixOf (x :: xs) then repl ++ (x :: xs).drop pat.length
    else x :: jsReplaceFirstAux pat repl xs

/-- Model of JavaScript `String.prototype.replace` with a plain-text
pattern: only the first occurrence is replaced. -/
def jsReplaceFirst (s pat repl : String) : String :=
  String.mk (jsReplaceFirstAux pat.toList repl.toList s.toList)

/-- Model of JavaScript `parseInt(s, 10)` restricted to plain decimal digit
strings; `none` models `NaN`. -/
def jsParseIntOnDigits (s : String) : Option Int :=
  match s.toList with
  | [] => none
  | cs =>
    if cs.all Char.isDigit then
      some (Int.ofNat (cs.foldl (fun n c => 10 * n + (c.toNat - 48)) 0))
    else none

/-- Lift of `jsParseIntOnDigits` to a possibly-undefined argument
(`parseInt(undefined)` is `NaN`). -/
def jsParseInt : Option String → Option Int
  | none => none
  | some s => jsParseIntOnDigits s

/-- Rendering of the numbers interpolated into the Content-Range template,
`NaN` included. -/
def jsNumStr : Option Int → String
  | none => "NaN"
  | some v => toString v

/-- Model of JavaScript `String.prototype.endsWith`. -/
def strEndsWith (s suf : String) : Bool :=
  suf.toList.isSuffixOf s.toList

/-- Model of node `path.join` on two segments (no dot normalisation, which
the embedded call sites never rely on). -/
def pathJoin (a b : String) : String :=
  if a = "" then b
  else if strEndsWith a "/" then a ++ b
  else a ++ "/" ++ b

/-- Error codes surfaced by the node filesystem API. -/
inductive FsErrCode where
  | ENOENT
  | EACCES
  | EIO
  deriving DecidableEq

/-- Result of `fs.stat`: the attributes the embedded code inspects. -/
structure Stats where
  isDirectory : Bool
  size : Nat
  deriving DecidableEq

/-- An HTTP-level error as produced by the `http-error` wrapper. -/
structure HttpError where
  status : Nat
  message : String
  deriving DecidableEq

/-- Modelled from the spec: the `http-error` module's `error(err, message)`
wrapper (error taxonomy of spec section 7) — absence (`ENOENT`) becomes a
404 NotFound, any other filesystem failure becomes a 500 IOError. -/
def httpError (code : FsErrCode) (message : String) : HttpError :=
  { status := match code with | FsErrCode.ENOENT => 404 | _ => 500
    message := message }

/-- Shorthand for `error(500, msg)` calls in the source. -/
def error500 (message : String) : HttpError := { status := 500, message := message }

/-- A result fails with NotFound when it is an error of status 404. -/
def failsNotFound {α : Type} (x : Except HttpError α) : Prop :=
  ∃ e, x = Except.error e ∧ e.status = 404

/-- Stat-derived attributes of one container member. -/
structure MemberStat where
  isDir : Bool
  size : Nat
  deriving DecidableEq

/-- Nodes of the container description graph: seed triples parsed from the
metadata resource, container-level statistics, and member descriptions. -/
inductive GraphNode where
  | seedNode (t : String)
  | containerStats (uri : String)
  | member (fileUri : String) (st : MemberStat)
  deriving DecidableEq

/-- A request-scoped RDF graph, as the ordered list of added nodes. -/
abbrev Graph := List GraphNode

/-- The value handed back in a `get` result's `stream` field: raw stats
(no-body requests), a file read stream with its optional byte window, or
an in-memory string stream. -/
inductive StreamVal where
  | statsVal (st : Stats)
  | fileStream (filename : String) (window : Option (Int × Int))
  | strStream (data : String)
  deriving DecidableEq

/-- The record passed to `get`'s callback on success. -/
structure GetResult where
  stream : StreamVal
  contentType : Option String
  container : Bool
  contentRange : Option String := none
  chunksize : Option Int := none
  deriving DecidableEq

/-- The options record consumed by `LDP.get`. -/
structure GetOptions where
  hostname : String
  path : String
  baseUri : Option String := none
  includeBody : Bool := false
  possibleRDFType : Option String := none
  range : Option String := none
  deriving DecidableEq

/-- Configuration fields of the `LDP` class used by the embedded methods. -/
structure LDPConf where
  root : String
  idp : Bool := false
  suffixAcl : String := ".acl"
  suffixMeta : String := ".meta"
  deriving DecidableEq

/-- Filename suffixes forced to turtle (constructor, source line 42). -/
def LDPConf.turtleExtensions (conf : LDPConf) : List String :=
  [".ttl", conf.suffixAcl, conf.suffixMeta]

/-- Oracles for the filesystem, the external libraries, and the repository
modules whose sources are not available. -/
structure Env where
  /-- Model of `fs.stat`. -/
  stat : String → Except FsErrCode Stats
  /-- Model of `fs.readFile`. -/
  readFile : String → Except FsErrCode String
  /-- Whether `fs.createReadStream` fires `error` (`some code`) instead of
  `open` (`none`). -/
  openError : String → Option FsErrCode
  /-- Modelled from the spec: the `ldp-file-store` `put` operation
  (spec section 4.2, streamed write). -/
  put : String → Except HttpError Unit
  /-- Modelled from the spec: `ldp-container.readdir` — enumerate the
  directory's immediate entries (spec section 4.3 step 3). -/
  readdir : String → Except FsErrCode (List String)
  /-- Model of rdflib's `parse` of turtle text (external library); `none`
  models a thrown parse error. -/
  parseGraph : String → String → Option Graph
  /-- Modelled from the spec: `utils.serialize` — graph-to-turtle
  serialisation (spec section 4.3 step 5); `none` models failure. -/
  serializeGraph : Graph → String → Option String
  /-- Modelled from the spec: the stat-and-describe step of
  `ldp-container.addFile` for one entry; `none` when that entry's stat
  fails (spec section 4.3 step 4). -/
  describeEntry : String → Option MemberStat
  /-- Modelled from the spec: `utils.parse` — RDF parsing in a requested
  content type (spec section 4.5, `graph`). -/
  parseRdf : String → Option String → String → Except HttpError Graph
  /-- Model of the `mime-types` lookup (external library); `none` when the
  extension is unrecognised (JS `false`). -/
  mimeLookup : String → Option String
  /-- Model of JavaScript `decodeURIComponent`. -/
  decodeURIComponent : String → String
  /-- Model of JavaScript `encodeURIComponent`. -/
  encodeURIComponent : String → String

/-- Default content type constant (source line 17). -/
def DEFAULT_CONTENT_TYPE : String := "text/turtle"

/-- Modelled from the spec: `utils.uriToFilename`, the Path Resolver's pure
mapping of a request path under a root directory (spec section 4.1). -/
def uriToFilename (uri base : String) : String := pathJoin base uri

/-- Root directory for a request: multi-tenant roots get the hostname
appended (source lines 316 and 268). -/
def rootFor (conf : LDPConf) (host : String) : String :=
  if conf.idp then conf.root ++ host ++ "/" else conf.root

/-- The absolute filename a request path resolves to. -/
def resolvedFilename (conf : LDPConf) (host reqPath : String) : String :=
  uriToFilename reqPath (rootFor conf host)

/-- Modelled from the spec: `utils.hasSuffix` — whether the filename ends
in one of the given suffixes (spec section 3, content type rules). -/
def hasSuffix (p : String) (sufs : List String) : Bool :=
  sufs.any (fun s => strEndsWith p s)

/-- Embedding of `LDP.readFile` (source lines 133–143). -/
def LDP.readFile (env : Env) (filename : String) : Except HttpError String :=
  match env.readFile filename with
  | Except.error e => Except.error (httpError e "Can't read file")
  | Except.ok data => Except.ok data

/-- Embedding of `LDP.readContainerMeta` (source lines 145–159): read the
metadata resource sitting directly inside the directory. -/
def LDP.readContainerMeta (conf : LDPConf) (env : Env) (dir : String) : Except HttpError String :=
  let dir := if !strEndsWith dir "/" then dir ++ "/" else dir
  match LDP.readFile env (dir ++ conf.suffixMeta) with
  | Except.error e => Except.error { status := e.status, message := "Can't read meta file" }
  | Except.ok data => Except.ok data

/-- Modelled from the spec: `ldp-container.addContainerStats` — augment the
graph with container-level statistics anchored at the container's own URI
(spec section 4.3 step 2). -/
def addContainerStats (reqUri filename : String) (g : Graph) : Graph :=
  g ++ [GraphNode.containerStats reqUri]

/-- Modelled from the spec: `ldp-container.addFile` — append one member's
description to the graph; an entry whose stat fails is simply omitted and
never reported as an error (spec sections 4.3 step 4 and 7). -/
def addFile (env : Env) (g : Graph) (fileUri file : String) : Graph :=
  match env.describeEntry file with
  | some st => g ++ [GraphNode.member fileUri st]
  | none => g

/-- Graph-building phase of `LDP.listContainer` (source lines 167–196):
parse the metadata seed, add container statistics, read the directory, and
fan out over its entries. -/
def listContainerGraph (env : Env) (filename reqUri containerData : String) : Except HttpError Graph :=
  match env.parseGraph containerData reqUri with
  | none => Except.error (error500 "Can't parse container")
  | some resourceGraph =>
    let g1 := addContainerStats reqUri filename resourceGraph
    match env.readdir filename with
    | Except.error _ => Except.error (error500 "Can't list container")
    | Except.ok files =>
      Except.ok (files.foldl
        (fun g file => addFile env g (reqUri ++ env.encodeURIComponent file) file) g1)

/-- Embedding of `LDP.listContainer` (source lines 161–212).  The `uri` and
`contentType` arguments are accepted and ignored exactly as in the source:
serialisation is always to turtle. -/
def LDP.listContainer (env : Env) (filename reqUri : String) (uri : Option String) (containerData : String) (contentType : Option String) : Except HttpError String :=
  match listContainerGraph env filename reqUri containerData with
  | Except.error e => Except.error e
  | Except.ok g =>
    match env.serializeGraph g reqUri with
    | none => Except.error (error500 "Can't serialize container")
    | some result => Except.ok result

/-- Embedding of `LDP.createReadStream` (source lines 125–131); note the
JavaScript truthiness test `if (start && end)` on the numeric bounds. -/
def LDP.createReadStream (filename : String) (startNum endNum : Option Int) : StreamVal :=
  if jsTruthyNum startNum && jsTruthyNum endNum then
    StreamVal.fileStream filename (some (startNum.getD 0, endNum.getD 0))
  else
    StreamVal.fileStream filename none

/-- Number of bytes node's `fs.createReadStream` delivers from a file of
the given size: a `start..end` window is inclusive and clamped at the end
of the file (external filesystem semantics). -/
def streamedBytes (size : Int) : StreamVal → Int
  | StreamVal.fileStream _ none => size
  | StreamVal.fileStream _ (some (s, e)) => max 0 (min e (size - 1) - s + 1)
  | StreamVal.strStream data => Int.ofNat data.length
  | StreamVal.statsVal _ => 0

/-- Embedding of `LDP.get` (source lines 295–380).  For a missing target
the stat error is surfaced; without body the raw stats are returned with
the requested content type; directories are listed and tagged as turtle;
plain files are streamed (optionally as a byte range, with Content-Range
bookkeeping) with a suffix-driven content type.  Following JavaScript,
`baseUri + reqPath` with an undefined base yields the string
`"undefined" ++ reqPath`, and `fs.statSync` re-queries the same pure store
that already answered the outer stat. -/
def LDP.get (conf : LDPConf) (env : Env) (opts : GetOptions) : Except HttpError GetResult :=
  let filename := resolvedFilename conf opts.hostname opts.path
  match env.stat filename with
  | Except.error e =>
    Except.error (httpError e ("Can't find file requested: " ++ filename))
  | Except.ok stats =>
    if !opts.includeBody then
      Except.ok { stream := StreamVal.statsVal stats
                  contentType := opts.possibleRDFType
                  container := stats.isDirectory }
    else if stats.isDirectory then
      let metaFile := match LDP.readContainerMeta conf env filename with
                      | Except.error _ => ""
                      | Except.ok data => data
      let absContainerUri := (opts.baseUri.getD "undefined") ++ opts.path
      match LDP.listContainer env filename absContainerUri opts.baseUri metaFile opts.possibleRDFType with
      | Except.error e => Except.error e
      | Except.ok data =>
        Except.ok { stream := StreamVal.strStream data
                    contentType := some "text/turtle"
                    container := true }
    else
      let streamInfo :=
        match opts.range with
        | some range =>
          let total : Int := Int.ofNat stats.size
          let parts := jsSplit (jsReplaceFirst range "bytes=" "") '-'
          let partialstart := parts[0]?
          let partialend := parts[1]?
          let startNum := jsParseInt partialstart
          let endNum := if jsTruthyOptStr partialend then jsParseInt partialend
                        else some (total - 1)
          let chunksize : Option Int :=
            match startNum, endNum with
            | some s, some e => some (e - s + 1)
            | _, _ => none
          let contentRange :=
            "bytes " ++ jsNumStr startNum ++ "-" ++ jsNumStr endNum ++ "/" ++ toString total
          (LDP.createReadStream filename startNum endNum, some contentRange, chunksize)
        | none => (LDP.createReadStream filename none none, (none : Option String), (none : Option Int))
      match env.openError filename with
      | some e => Except.error (httpError e "Can't create file")
      | none =>
        let ct0 := (env.mimeLookup filename).getD DEFAULT_CONTENT_TYPE
        let ct := if hasSuffix filename conf.turtleExtensions then "text/turtle" else ct0
        Except.ok { stream := streamInfo.1
                    contentType := some ct
                    container := false
                    contentRange := streamInfo.2.1
                    chunksize := streamInfo.2.2 }

/-- Embedding of `LDP.exists` (source lines 243–252): a `get` with body
inclusion suppressed. -/
def LDP.exists (conf : LDPConf) (env : Env) (host reqPath : String) : Except HttpError GetResult :=
  LDP.get conf env
    { hostname := host, path := reqPath, baseUri := none
      includeBody := false, possibleRDFType := none, range := none }

/-- Translation of an `exists` outcome into a boolean, as performed by its
consumer (`exists = !err`, source line 396). -/
def existsToBool : Except HttpError GetResult → Bool
  | Except.error _ => false
  | Except.ok _ => true

/-- Embedding of `LDP.graph` (source lines 254–283), after the JavaScript
argument overloading has been resolved to explicit optional arguments. -/
def LDP.graph (conf : LDPConf) (env : Env) (host reqPath : String) (baseUri : Option String) (contentType : String) : Except HttpError Graph :=
  let filename := resolvedFilename conf host reqPath
  match LDP.readFile env filename with
  | Except.error e => Except.error e
  | Except.ok body => env.parseRdf body baseUri contentType

/-- Short random disambiguator derived from a v1 uuid: its first
hyphen-separated segment plus a hyphen (source line 399). -/
def uuidDisambiguator (u : String) : String :=
  ((jsSplit u '-').headD "") ++ "-"

/-- Check-then-retry loop of `LDP.getAvailablePath` (source lines
393–411): the unbounded `doWhilst` is driven by an explicit supply of
generated uuids; `none` means the supply ran out while every candidate
collided (the JavaScript loop would simply keep drawing). -/
def LDP.getAvailablePathLoop (conf : LDPConf) (env : Env) (host containerURI slug newPath : String) : List String → Option String
  | [] =>
    if existsToBool (LDP.exists conf env host newPath) then none else some newPath
  | u :: rest =>
    if existsToBool (LDP.exists conf env host newPath) then
      LDP.getAvailablePathLoop conf env host containerURI slug
        (pathJoin containerURI (uuidDisambiguator u ++ slug)) rest
    else some newPath

/-- Embedding of `LDP.getAvailablePath` (source lines 382–412); `uuidGen`
models the `uuid.v1()` drawn when no slug is supplied and `uuids` the
per-collision `uuid.v1()` draws. -/
def LDP.getAvailablePath (conf : LDPConf) (env : Env) (host containerURI : String) (slug : Option String) (uuidGen : String) (uuids : List String) : Option String :=
  let slug := if jsTruthyOptStr slug then slug.getD "" else uuidGen
  LDP.getAvailablePathLoop conf env host containerURI slug (pathJoin containerURI slug) uuids

/-- Reserved-character test of source line 220: the regex match of slash,
pipe or colon. -/
def slugHasReserved (s : String) : Bool :=
  s.toList.any (fun c => c == '/' || c == '|' || c == ':')

/-- The `error(400, ...)` raised for an invalid slug (source line 221). -/
def badSlugError : HttpError :=
  { status := 400, message := "The name of new file POSTed may not contain : | or /" }

/-- Slug preparation step of `LDP.post` (source lines 217–224): decode,
then fail fast on reserved characters. -/
def preparedSlug (env : Env) (slug : Option String) : Except HttpError (Option String) :=
  if jsTruthyOptStr slug then
    let s := env.decodeURIComponent (slug.getD "")
    if slugHasReserved s then Except.error badSlugError else Except.ok (some s)
  else Except.ok slug

/-- Embedding of `LDP.post` (source lines 214–241).  The first component
collects the callback invocations in order — note that after a failing
`put` the callback fires twice (`if (err) callback(err); callback(null,
originalPath)`, source lines 236–239).  The second component lists the
filesystem write targets handed to `put`. -/
def LDP.post (conf : LDPConf) (env : Env) (host containerPath : String) (slug : Option String) (container : Bool) (uuidGen : String) (uuids : List String) : List (Except HttpError String) × List String :=
  match preparedSlug env slug with
  | Except.error e => ([Except.error e], [])
  | Except.ok slug =>
    match LDP.getAvailablePath conf env host containerPath slug uuidGen uuids with
    | none => ([], [])
    | some resourcePath =>
      let originalPath := resourcePath
      let resourcePath := if container then pathJoin originalPath conf.suffixMeta else resourcePath
      let originalPath :=
        if container then
          if jsTruthyStr originalPath && !strEndsWith originalPath "/" then originalPath ++ "/"
          else originalPath
        else originalPath
      match env.put resourcePath with
      | Except.error e => ([Except.error e, Except.ok originalPath], [resourcePath])
      | Except.ok _ => ([Except.ok originalPath], [resourcePath])

/-- Member descriptions surviving the container fan-out: exactly the
entries whose stat succeeded. -/
def membersOf (env : Env) (reqUri : String) (files : List String) : Graph :=
  files.filterMap (fun file =>
    (env.describeEntry file).map
      (fun st => GraphNode.member (reqUri ++ env.encodeURIComponent file) st))

theorem foldl_addFile (env : Env) (reqUri : String) (files : List String) (g : Graph) :
    files.foldl (fun g file => addFile env g (reqUri ++ env.encodeURIComponent file) file) g
      = g ++ membersOf env reqUri files := by
  induction files generalizing g with
  | nil => simp [membersOf]
  | cons f fs ih =>
    simp only [List.foldl_cons, membersOf, List.filterMap_cons]
    cases h : env.describeEntry f with
    | none => simpa [addFile, h, membersOf] using ih (addFile env g (reqUri ++ env.encodeURIComponent f) f)
    | some st =>
      have := ih (addFile env g (reqUri ++ env.encodeURIComponent f) f)
      simp [addFile, h, membersOf] at this ⊢
      simp [this]

theorem listContainer_contentType_irrel (env : Env) (filename reqUri : String) (uri : Option String) (containerData : String) (ct1 ct2 : Option String) :
    LDP.listContainer env filename reqUri uri containerData ct1
      = LDP.listContainer env filename reqUri uri containerData ct2 := rfl

theorem getAvailablePathLoop_spec (conf : LDPConf) (env : Env) (host containerURI slug : String) (uuids : List String) (newPath p : String)
    (h : LDP.getAvailablePathLoop conf env host containerURI slug newPath uuids = some p) :
    existsToBool (LDP.exists conf env host p) = false ∧
    (p = newPath ∨ ∃ u ∈ uuids, p = pathJoin containerURI (uuidDisambiguator u ++ slug)) := by
  induction uuids generalizing newPath with
  | nil =>
    by_cases hex : existsToBool (LDP.exists conf env host newPath) = true
    · simp [LDP.getAvailablePathLoop, hex] at h
    · rw [LDP.getAvailablePathLoop, if_neg hex] at h
      cases h
      exact ⟨by simpa using hex, Or.inl rfl⟩
  | cons u rest ih =>
    by_cases hex : existsToBool (LDP.exists conf env host newPath) = true
    · rw [LDP.getAvailablePathLoop, if_pos hex] at h
      rcases ih _ h with ⟨hfresh, hstruct⟩
      refine ⟨hfresh, ?_⟩
      rcases hstruct with heq | ⟨u', hu', heq⟩
      · exact Or.inr ⟨u, List.mem_cons_self u rest, heq⟩
      · exact Or.inr ⟨u', List.mem_cons_of_mem u hu', heq⟩
    · rw [LDP.getAvailablePathLoop, if_neg hex] at h
      cases h
      exact ⟨by simpa using hex, Or.inl rfl⟩

/-- Decidable equality for `Except`, so concrete runs of the embedded
operations can be checked by `decide`. -/
instance {ε α : Type} [DecidableEq ε] [DecidableEq α] : DecidableEq (Except ε α) := fun x y =>
  match x, y with
  | Except.error a, Except.error b =>
    if h : a = b then isTrue (by rw [h]) else isFalse (by intro hh; cases hh; exact h rfl)
  | Except.error _, Except.ok _ => isFalse (by intro hh; cases hh)
  | Except.ok _, Except.error _ => isFalse (by intro hh; cases hh)
  | Except.ok a, Except.ok b =>
    if h : a = b then isTrue (by rw [h]) else isFalse (by intro hh; cases hh; exact h rfl)

/-- A small concrete world for the witness theorems: a 100-byte file, a
turtle file, three directories (one with members, one without a metadata
resource, one with malformed metadata), and an occupied slug. -/
def sampleEnv : Env :=
  { stat := fun p =>
      if p = "/data/file100" then Except.ok { isDirectory := false, size := 100 }
      else if p = "/data/x.ttl" then Except.ok { isDirectory := false, size := 7 }
      else if p = "/data/d" then Except.ok { isDirectory := true, size := 0 }
      else if p = "/data/e" then Except.ok { isDirectory := true, size := 0 }
      else if p = "/data/f" then Except.ok { isDirectory := true, size := 0 }
      else if p = "/data/c/s" then Except.ok { isDirectory := false, size := 3 }
      else Except.error FsErrCode.ENOENT
    readFile := fun p =>
      if p = "/data/d/.meta" then Except.ok "seed"
      else if p = "/data/f/.meta" then Except.ok "BAD"
      else Except.error FsErrCode.ENOENT
    openError := fun _ => none
    put := fun p =>
      if p = "cbad/u1/.meta" then Except.error { status := 500, message := "disk full" }
      else Except.ok ()
    readdir := fun p =>
      if p = "/data/d" then Except.ok ["a.ttl", "bad.bin"]
      else if p = "/data/e" then Except.ok []
      else Except.error FsErrCode.ENOENT
    parseGraph := fun data _ =>
      if data = "" then some []
      else if data = "seed" then some [GraphNode.seedNode "seed"]
      else none
    serializeGraph := fun _ _ => some "TTL"
    describeEntry := fun f =>
      if f = "a.ttl" then some { isDir := false, size := 5 } else none
    parseRdf := fun _ _ _ => Except.ok []
    mimeLookup := fun p =>
      if strEndsWith p ".jpg" then some "image/jpeg" else none
    decodeURIComponent := fun s => s
    encodeURIComponent := fun s => s }

/-- Configuration used by the witnesses: single-tenant root. -/
def sampleConf : LDPConf := { root := "/data/" }

/-- C1: every path the slug allocator hands back was observed not to exist
by the existence check that immediately preceded its return; when no slug
is supplied the generated time-ordered identifier becomes the slug, and
each candidate after a collision is the slug with a short random
uuid-derived prefix prepended. -/
theorem getAvailablePath_fresh (conf : LDPConf) (env : Env) (host containerURI : String) (slug : Option String) (uuidGen : String) (uuids : List String) (p : String)
    (h : LDP.getAvailablePath conf env host containerURI slug uuidGen uuids = some p) :
    existsToBool (LDP.exists conf env host p) = false ∧
    (p = pathJoin containerURI (if jsTruthyOptStr slug then slug.getD "" else uuidGen) ∨
     ∃ u ∈ uuids, p = pathJoin containerURI
       (uuidDisambiguator u ++ (if jsTruthyOptStr slug then slug.getD "" else uuidGen))) := by
  refine getAvailablePathLoop_spec conf env host containerURI _ uuids _ p ?_
  simpa [LDP.getAvailablePath] using h

/-- Witness for C1: with slug `s` occupied in container `c`, the allocator
returns the prefixed candidate, which the existence check rejected. -/
theorem getAvailablePath_fresh_witness :
    existsToBool (LDP.exists sampleConf sampleEnv "h" "c/abcd-s") = false ∧
    ("c/abcd-s" = pathJoin "c" (if jsTruthyOptStr (some "s") then (some "s").getD "" else "g") ∨
     ∃ u ∈ ["abcd-efgh"], "c/abcd-s" = pathJoin "c"
       (uuidDisambiguator u ++ (if jsTruthyOptStr (some "s") then (some "s").getD "" else "g"))) :=
  getAvailablePath_fresh sampleConf sampleEnv "h" "c" (some "s") "g" ["abcd-efgh"] "c/abcd-s" (by decide)

/-- C2 (code-bug evidence): on a 100-byte resource the requested range
`bytes=0-19` yields Content-Range `bytes 0-19/100` and chunksize 20 yet
streams the whole 100-byte file, because `if (start && end)` treats the
start offset 0 as absent; the range `bytes=10-19` streams exactly the 10
requested bytes as the claim describes. -/
theorem get_range_zero_start_bug :
    (LDP.get sampleConf sampleEnv
        { hostname := "h", path := "file100", includeBody := true, range := some "bytes=0-19" }
      = Except.ok { stream := StreamVal.fileStream "/data/file100" none
                    contentType := some "text/turtle"
                    container := false
                    contentRange := some "bytes 0-19/100"
                    chunksize := some 20 }
     ∧ streamedBytes 100 (StreamVal.fileStream "/data/file100" none) = 100)
    ∧
    (LDP.get sampleConf sampleEnv
        { hostname := "h", path := "file100", includeBody := true, range := some "bytes=10-19" }
      = Except.ok { stream := StreamVal.fileStream "/data/file100" (some (10, 19))
                    contentType := some "text/turtle"
                    container := false
                    contentRange := some "bytes 10-19/100"
                    chunksize := some 10 }
     ∧ streamedBytes 100 (StreamVal.fileStream "/data/file100" (some (10, 19))) = 10) := by
  decide

/-- C3: a body-producing `get` on a directory returns the serialised
container graph tagged `text/turtle` with the container flag set, and the
requested content type has no effect on the outcome. -/
theorem get_container_always_turtle (conf : LDPConf) (env : Env) (opts : GetOptions) (st : Stats)
    (h1 : env.stat (resolvedFilename conf opts.hostname opts.path) = Except.ok st)
    (h2 : st.isDirectory = true) (h3 : opts.includeBody = true) :
    (∀ r, LDP.get conf env opts = Except.ok r →
       r.contentType = some "text/turtle" ∧ r.container = true ∧
       ∃ data, r.stream = StreamVal.strStream data) ∧
    (∀ ct, LDP.get conf env opts = LDP.get conf env { opts with possibleRDFType := ct }) := by
  constructor
  · intro r hr
    simp only [LDP.get, h1, h3, h2, Bool.not_true, Bool.false_eq_true, if_false, if_true] at hr
    split at hr
    · cases hr
    · cases hr
      exact ⟨rfl, rfl, _, rfl⟩
  · intro ct
    simp only [LDP.get, h1, h3, h2, Bool.not_true, Bool.false_eq_true, if_false, if_true]
    rw [listContainer_contentType_irrel env _ _ _ _ _ ct]

/-- Witness for C3 at the sample directory: the produced result is the
turtle-tagged serialised graph, here checked on the concretely computed
result record, and an alternative requested content type leaves the
outcome unchanged. -/
theorem get_container_always_turtle_witness :
    GetResult.contentType { stream := StreamVal.strStream "TTL", contentType := some "text/turtle", container := true } = some "text/turtle" ∧
    GetResult.container { stream := StreamVal.strStream "TTL", contentType := some "text/turtle", container := true } = true ∧
    (∃ data, GetResult.stream { stream := StreamVal.strStream "TTL", contentType := some "text/turtle", container := true } = StreamVal.strStream data) ∧
    LDP.get sampleConf sampleEnv { hostname := "h", path := "d", baseUri := some "http://h/", includeBody := true }
      = LDP.get sampleConf sampleEnv { hostname := "h", path := "d", baseUri := some "http://h/", includeBody := true, possibleRDFType := some "application/rdf+xml" } := by
  have h := get_container_always_turtle sampleConf sampleEnv
    { hostname := "h", path := "d", baseUri := some "http://h/", includeBody := true }
    { isDirectory := true, size := 0 } (by decide) rfl rfl
  have hr := h.1 { stream := StreamVal.strStream "TTL", contentType := some "text/turtle", container := true } (by decide)
  exact ⟨hr.1, hr.2.1, hr.2.2, h.2 (some "application/rdf+xml")⟩

/-- C4: on a container `get`, a missing metadata resource degrades to an
empty seed graph and the request still succeeds, while present but
malformed metadata content aborts the whole request with the
CannotParseContainer error. -/
theorem get_container_meta_handling (conf : LDPConf) (env : Env) (opts : GetOptions) (st : Stats)
    (h1 : env.stat (resolvedFilename conf opts.hostname opts.path) = Except.ok st)
    (h2 : st.isDirectory = true) (h3 : opts.includeBody = true) :
    ((∃ e, LDP.readContainerMeta conf env (resolvedFilename conf opts.hostname opts.path) = Except.error e) →
      ∀ files out,
        env.parseGraph "" (opts.baseUri.getD "undefined" ++ opts.path) = some [] →
        env.readdir (resolvedFilename conf opts.hostname opts.path) = Except.ok files →
        env.serializeGraph
          (addContainerStats (opts.baseUri.getD "undefined" ++ opts.path) (resolvedFilename conf opts.hostname opts.path) []
            ++ membersOf env (opts.baseUri.getD "undefined" ++ opts.path) files)
          (opts.baseUri.getD "undefined" ++ opts.path) = some out →
        LDP.get conf env opts
          = Except.ok { stream := StreamVal.strStream out, contentType := some "text/turtle", container := true }) ∧
    (∀ data, LDP.readContainerMeta conf env (resolvedFilename conf opts.hostname opts.path) = Except.ok data →
        env.parseGraph data (opts.baseUri.getD "undefined" ++ opts.path) = none →
        LDP.get conf env opts = Except.error (error500 "Can't parse container")) := by
  constructor
  · rintro ⟨e, he⟩ files out hp hrd hs
    simp only [LDP.get, h1, h3, h2, he, Bool.not_true, Bool.false_eq_true, if_false, if_true,
      LDP.listContainer, listContainerGraph, hp, hrd, foldl_addFile, hs]
  · intro data hm hp
    simp only [LDP.get, h1, h3, h2, hm, Bool.not_true, Bool.false_eq_true, if_false, if_true,
      LDP.listContainer, listContainerGraph, hp]

/-- Witness for C4: a directory without a metadata resource lists fine
from the empty seed, one with malformed metadata fails to parse. -/
theorem get_container_meta_handling_witness :
    LDP.get sampleConf sampleEnv { hostname := "h", path := "e", baseUri := some "http://h/", includeBody := true }
      = Except.ok { stream := StreamVal.strStream "TTL", contentType := some "text/turtle", container := true } ∧
    LDP.get sampleConf sampleEnv { hostname := "h", path := "f", baseUri := some "http://h/", includeBody := true }
      = Except.error (error500 "Can't parse container") := by
  constructor
  · exact (get_container_meta_handling sampleConf sampleEnv
      { hostname := "h", path := "e", baseUri := some "http://h/", includeBody := true }
      { isDirectory := true, size := 0 } (by decide) rfl rfl).1
      ⟨{ status := 404, message := "Can't read meta file" }, by decide⟩
      [] "TTL" (by decide) (by decide) (by decide)
  · exact (get_container_meta_handling sampleConf sampleEnv
      { hostname := "h", path := "f", baseUri := some "http://h/", includeBody := true }
      { isDirectory := true, size := 0 } (by decide) rfl rfl).2
      "BAD" (by decide) (by decide)

/-- C5: the container graph build swallows per-entry description failures:
the build still succeeds and its member set is exactly those entries whose
description succeeded, each failing entry being omitted rather than
escalated. -/
theorem listContainer_member_failure_swallowed (env : Env) (filename reqUri containerData : String) (seed : Graph) (files : List String)
    (hp : env.parseGraph containerData reqUri = some seed)
    (hr : env.readdir filename = Except.ok files) :
    listContainerGraph env filename reqUri containerData
      = Except.ok (addContainerStats reqUri filename seed ++ membersOf env reqUri files) ∧
    ∀ file ∈ files, ∀ st, env.describeEntry file = some st →
      GraphNode.member (reqUri ++ env.encodeURIComponent file) st ∈ membersOf env reqUri files := by
  constructor
  · simp only [listContainerGraph, hp, hr, foldl_addFile]
  · intro file hf st hst
    simp only [membersOf, List.mem_filterMap]
    exact ⟨file, hf, by rw [hst]; rfl⟩

/-- Witness for C5: of the two sample entries only `a.ttl` can be
described; `bad.bin` is dropped and the listing still succeeds. -/
theorem listContainer_member_failure_swallowed_witness :
    listContainerGraph sampleEnv "/data/d" "http://h/d" "seed"
      = Except.ok (addContainerStats "http://h/d" "/data/d" [GraphNode.seedNode "seed"]
          ++ membersOf sampleEnv "http://h/d" ["a.ttl", "bad.bin"]) ∧
    GraphNode.member ("http://h/d" ++ "a.ttl") { isDir := false, size := 5 }
      ∈ membersOf sampleEnv "http://h/d" ["a.ttl", "bad.bin"] := by
  have h := listContainer_member_failure_swallowed sampleEnv "/data/d" "http://h/d" "seed"
    [GraphNode.seedNode "seed"] ["a.ttl", "bad.bin"] (by decide) (by decide)
  exact ⟨h.1, h.2 "a.ttl" (by decide) { isDir := false, size := 5 } (by decide)⟩

/-- C6: creating a container via `post` writes to the metadata-resource
path joined one level inside the allocated directory path, and every path
reported back to the caller is the logical container path — the allocated
directory path (slash-terminated), never the metadata file path. -/
theorem post_container_meta_target (conf : LDPConf) (env : Env) (host containerPath : String) (slug slugP : Option String) (uuidGen : String) (uuids : List String) (ap : String)
    (hs : preparedSlug env slug = Except.ok slugP)
    (ha : LDP.getAvailablePath conf env host containerPath slugP uuidGen uuids = some ap) :
    (LDP.post conf env host containerPath slug true uuidGen uuids).2
        = [pathJoin ap conf.suffixMeta] ∧
    ∀ s, Except.ok s ∈ (LDP.post conf env host containerPath slug true uuidGen uuids).1 →
      s = (if jsTruthyStr ap && !strEndsWith ap "/" then ap ++ "/" else ap) := by
  simp only [LDP.post, hs, ha, if_true]
  cases hput : env.put (pathJoin ap conf.suffixMeta) with
  | error e =>
    refine ⟨rfl, ?_⟩
    intro s hsmem
    simp only [List.mem_cons, List.mem_singleton] at hsmem
    rcases hsmem with h | h | h
    · cases h
    · cases h; rfl
    · cases h
  | ok u =>
    refine ⟨rfl, ?_⟩
    intro s hsmem
    simp only [List.mem_singleton] at hsmem
    cases hsmem; rfl

/-- Witness for C6: posting a container into `c6` writes the nested
metadata file and reports the slash-terminated directory path. -/
theorem post_container_meta_target_witness :
    (LDP.post sampleConf sampleEnv "h" "c6" none true "u1" []).2 = [pathJoin "c6/u1" sampleConf.suffixMeta] ∧
    "c6/u1/" = (if jsTruthyStr "c6/u1" && !strEndsWith "c6/u1" "/" then "c6/u1" ++ "/" else "c6/u1") := by
  have h := post_container_meta_target sampleConf sampleEnv "h" "c6" none none "u1" [] "c6/u1" (by decide) (by decide)
  exact ⟨h.1, h.2 "c6/u1/" (by decide)⟩

/-- C7: a truthy caller-supplied slug whose decoded form contains a slash,
pipe or colon makes `post` fail immediately: the only callback invocation
is the 400 BadSlug error and no write target is ever produced, whatever
the rest of the environment does. -/
theorem post_bad_slug_fails_fast (conf : LDPConf) (env : Env) (host containerPath : String) (slug : Option String) (container : Bool) (uuidGen : String) (uuids : List String)
    (ht : jsTruthyOptStr slug = true)
    (hbad : slugHasReserved (env.decodeURIComponent (slug.getD "")) = true) :
    LDP.post conf env host containerPath slug container uuidGen uuids
      = ([Except.error badSlugError], []) ∧ badSlugError.status = 400 := by
  refine ⟨?_, rfl⟩
  simp only [LDP.post, preparedSlug, ht, hbad, if_true]

/-- Witness for C7: slug `a/b` is rejected outright. -/
theorem post_bad_slug_fails_fast_witness :
    LDP.post sampleConf sampleEnv "h" "c" (some "a/b") false "u1" []
      = ([Except.error badSlugError], []) ∧ badSlugError.status = 400 :=
  post_bad_slug_fails_fast sampleConf sampleEnv "h" "c" (some "a/b") false "u1" [] (by decide) (by decide)

/-- C8: when the target path does not exist, `get` and `graph` fail with
the 404 NotFound error, and `exists` — a `get` with body inclusion
suppressed — translates through `!err` to false. -/
theorem nonexistent_notFound (conf : LDPConf) (env : Env) (host reqPath : String)
    (hstat : env.stat (resolvedFilename conf host reqPath) = Except.error FsErrCode.ENOENT)
    (hread : env.readFile (resolvedFilename conf host reqPath) = Except.error FsErrCode.ENOENT) :
    (∀ opts : GetOptions, opts.hostname = host → opts.path = reqPath →
       failsNotFound (LDP.get conf env opts)) ∧
    (∀ baseUri ct, failsNotFound (LDP.graph conf env host reqPath baseUri ct)) ∧
    existsToBool (LDP.exists conf env host reqPath) = false := by
  have hget : ∀ opts : GetOptions, opts.hostname = host → opts.path = reqPath →
      failsNotFound (LDP.get conf env opts) := by
    intro opts hh hp
    refine ⟨httpError FsErrCode.ENOENT ("Can't find file requested: " ++ resolvedFilename conf host reqPath), ?_, rfl⟩
    simp only [LDP.get, hh, hp, hstat]
  refine ⟨hget, ?_, ?_⟩
  · intro baseUri ct
    refine ⟨httpError FsErrCode.ENOENT "Can't read file", ?_, rfl⟩
    simp only [LDP.graph, LDP.readFile, hread]
  · rcases hget { hostname := host, path := reqPath } rfl rfl with ⟨e, he, _⟩
    simp only [LDP.exists]
    rw [he]
    rfl

/-- Witness for C8 at the absent path `missing`. -/
theorem nonexistent_notFound_witness :
    failsNotFound (LDP.get sampleConf sampleEnv { hostname := "h", path := "missing", includeBody := true }) ∧
    failsNotFound (LDP.graph sampleConf sampleEnv "h" "missing" none "text/turtle") ∧
    existsToBool (LDP.exists sampleConf sampleEnv "h" "missing") = false := by
  have h := nonexistent_notFound sampleConf sampleEnv "h" "missing" (by decide) (by decide)
  exact ⟨h.1 _ rfl rfl, h.2.1 none "text/turtle", h.2.2⟩

/-- C9: for a body-producing `get` on an existing plain resource, a
filename carrying one of the explicit RDF suffixes (`.ttl`, the ACL
suffix, the metadata suffix) always yields the turtle content type,
overriding the mime lookup; otherwise the content type comes from the
mime lookup on the filename, falling back to the default content type
when the extension is unrecognised. -/
theorem get_file_content_type (conf : LDPConf) (env : Env) (opts : GetOptions) (st : Stats)
    (h1 : env.stat (resolvedFilename conf opts.hostname opts.path) = Except.ok st)
    (h2 : st.isDirectory = false) (h3 : opts.includeBody = true) :
    ∀ r, LDP.get conf env opts = Except.ok r →
      (hasSuffix (resolvedFilename conf opts.hostname opts.path) conf.turtleExtensions = true →
         r.contentType = some "text/turtle") ∧
      (hasSuffix (resolvedFilename conf opts.hostname opts.path) conf.turtleExtensions = false →
         r.contentType = some ((env.mimeLookup (resolvedFilename conf opts.hostname opts.path)).getD DEFAULT_CONTENT_TYPE)) := by
  intro r hr
  simp only [LDP.get, h1, h3, h2, Bool.not_true, Bool.false_eq_true, if_false, if_true] at hr
  cases ho : env.openError (resolvedFilename conf opts.hostname opts.path) with
  | some e => rw [ho] at hr; cases hr
  | none =>
    rw [ho] at hr
    cases hr
    constructor
    · intro hsuf; simp only [hsuf, if_true]
    · intro hsuf; simp only [hsuf, Bool.false_eq_true, if_false]

/-- Witness for C9: `x.ttl` resolves to the turtle content type. -/
theorem get_file_content_type_witness :
    GetResult.contentType { stream := StreamVal.fileStream "/data/x.ttl" none, contentType := some "text/turtle", container := false } = some "text/turtle" := by
  exact (get_file_content_type sampleConf sampleEnv
      { hostname := "h", path := "x.ttl", includeBody := true } { isDirectory := false, size := 7 }
      (by decide) rfl rfl
      { stream := StreamVal.fileStream "/data/x.ttl" none, contentType := some "text/turtle", container := false }
      (by decide)).1 (by decide)

/-- C10: when the underlying write fails during `post`, the callback is
invoked twice — first with the write error, then unconditionally with
success carrying the created path. -/
theorem post_double_callback_on_put_error (conf : LDPConf) (env : Env) (host containerPath : String) (slug slugP : Option String) (container : Bool) (uuidGen : String) (uuids : List String) (ap : String) (e : HttpError)
    (hs : preparedSlug env slug = Except.ok slugP)
    (ha : LDP.getAvailablePath conf env host containerPath slugP uuidGen uuids = some ap)
    (hput : env.put (if container then pathJoin ap conf.suffixMeta else ap) = Except.error e) :
    (LDP.post conf env host containerPath slug container uuidGen uuids).1
      = [Except.error e,
         Except.ok (if container then
            (if jsTruthyStr ap && !strEndsWith ap "/" then ap ++ "/" else ap) else ap)] := by
  cases container with
  | true =>
    simp only [if_true] at hput ⊢
    simp only [LDP.post, hs, ha, if_true, hput]
  | false =>
    simp only [Bool.false_eq_true, if_false] at hput ⊢
    simp only [LDP.post, hs, ha, Bool.false_eq_true, if_false, hput]

/-- Witness for C10: a failing metadata write in `cbad` yields the error
invocation followed by the success invocation. -/
theorem post_double_callback_on_put_error_witness :
    (LDP.post sampleConf sampleEnv "h" "cbad" none true "u1" []).1
      = [Except.error { status := 500, message := "disk full" }, Except.ok "cbad/u1/"] := by
  have h := post_double_callback_on_put_error sampleConf sampleEnv "h" "cbad" none none true "u1" []
    "cbad/u1" { status := 500, message := "disk full" } (by decide) (by decide) (by decide)
  simpa using h
